import Mathlib

/-!
Shallow embedding of the streaming-feed subsystem of `pykalshi`
(`src/pykalshi/afeed.py`, class `AsyncFeed`).

Python dicts with integer keys are modelled as insertion-ordered
association lists; the wire transport is modelled by returning the list
of commands written to it; time (`time.time()`) is passed in as a `Nat`
parameter; the float backoff durations are modelled as rationals.
-/

namespace Pykalshi

/-- The subscription parameters dict built by `AsyncFeed.subscribe` /
`AsyncFeed.unsubscribe`: `{"channels": [channel]}` plus the optional
`market_ticker` and `market_tickers` keys (absent keys are `none`). -/
structure SubParams where
  channels : List String
  market_ticker : Option String
  market_tickers : Option (List String)
deriving DecidableEq, Repr

/-- Modelled from the spec: `normalize_tickers` is defined in
`pykalshi/_utils.py`, which is not among the provided sources; §6 of the
spec says `market_ticker`/`market_tickers` values are upper-cased before
transmission, so it upper-cases each ticker in the list. -/
def normalize_tickers (ts : List String) : List String :=
  ts.map String.toUpper

/-- Parameters carried by an outbound wire command: a subscription-params
dict for `subscribe`, a `{"sids": [...]}` dict for `unsubscribe`. -/
inductive CmdParams
  | sub (p : SubParams)
  | unsub (sids : List Nat)
deriving DecidableEq, Repr

/-- An outbound wire command `{"id": cmd_id, "cmd": cmd, "params": params}`
as serialized by `AsyncFeed._send_cmd`. -/
structure WireCmd where
  id : Nat
  cmd : String
  params : CmdParams
deriving DecidableEq, Repr

/-- Insertion-ordered association-list model of a Python `dict[int, ...]`. -/
def dictLookup (k : Nat) (d : List (Nat × SubParams)) : Option SubParams :=
  (d.find? (fun kv => kv.1 == k)).map (·.2)

/-- `d[k] = v` on a Python dict: update in place if the key exists,
append otherwise. -/
def dictInsert (k : Nat) (v : SubParams) (d : List (Nat × SubParams)) :
    List (Nat × SubParams) :=
  if d.any (fun kv => kv.1 == k) then
    d.map (fun kv => if kv.1 == k then (k, v) else kv)
  else
    d ++ [(k, v)]

/-- `del d[k]` / successful `d.pop(k)` on a Python dict. -/
def dictRemove (k : Nat) (d : List (Nat × SubParams)) : List (Nat × SubParams) :=
  d.filter (fun kv => !(kv.1 == k))

/-- The mutable state of one `AsyncFeed` instance (`AsyncFeed.__init__`).
`ws : Bool` models whether `self._ws` holds a transport handle;
`cmd_id_counter` is the next value of `itertools.count(1)`. -/
structure FeedState where
  active_subs : List SubParams
  sids : List (Nat × SubParams)
  pending_subs : List (Nat × SubParams)
  ws : Bool
  cmd_id_counter : Nat
  connected : Bool
  connected_at : Option Nat
  last_message_at : Option Nat
  last_server_ts : Option Int
  message_count : Nat
  reconnect_count : Nat
deriving DecidableEq, Repr

/-- `AsyncFeed.__init__`: empty registries, counter at 1, disconnected. -/
def initFeedState : FeedState :=
  { active_subs := []
    sids := []
    pending_subs := []
    ws := false
    cmd_id_counter := 1
    connected := false
    connected_at := none
    last_message_at := none
    last_server_ts := none
    message_count := 0
    reconnect_count := 0 }

/-- The params dict built at the top of `subscribe` / `unsubscribe`:
`{"channels": [channel]}`, plus `market_ticker.upper()` when given, plus
`normalize_tickers(market_tickers)` when given. -/
def mkParams (channel : String) (mt : Option String) (mts : Option (List String)) :
    SubParams :=
  { channels := [channel]
    market_ticker := mt.map String.toUpper
    market_tickers := mts.map normalize_tickers }

/-- `AsyncFeed.subscribe`: append the params to `self._active_subs`;
nothing else happens. -/
def subscribe (channel : String) (mt : Option String) (mts : Option (List String))
    (s : FeedState) : FeedState :=
  { s with active_subs := s.active_subs ++ [mkParams channel mt mts] }

/-- `AsyncFeed._send_cmd`: draw the next command id; if a transport handle
is present, serialize and send the command (returned in the sent-list),
otherwise send nothing.  Always returns the assigned id. -/
def sendCmd (cmd : String) (params : CmdParams) (s : FeedState) :
    Nat × FeedState × List WireCmd :=
  let cmd_id := s.cmd_id_counter
  let s := { s with cmd_id_counter := s.cmd_id_counter + 1 }
  if s.ws then
    (cmd_id, s, [⟨cmd_id, cmd, params⟩])
  else
    (cmd_id, s, [])

/-- `AsyncFeed._subscribe_and_track`: send a subscribe command and record
it in `self._pending_subs` under its command id. -/
def subscribeAndTrack (params : SubParams) (s : FeedState) :
    FeedState × List WireCmd :=
  let r := sendCmd "subscribe" (.sub params) s
  ({ r.2.1 with pending_subs := dictInsert r.1 params r.2.1.pending_subs }, r.2.2)

/-- The `for params in self._active_subs: await self._subscribe_and_track(params)`
loop at the end of `AsyncFeed.connect`. -/
def replaySubs : List SubParams → FeedState → FeedState × List WireCmd
  | [], s => (s, [])
  | p :: rest, s =>
    let r1 := subscribeAndTrack p s
    let r2 := replaySubs rest r1.1
    (r2.1, r1.2 ++ r2.2)

/-- `AsyncFeed.connect`, successful path (the `websockets` import and the
transport handshake succeed): store the transport handle, bump the
reconnect counter if this is not the first connection, record the
connection time, clear `self._sids` and `self._pending_subs`, then replay
every entry of `self._active_subs` in order. -/
def connect (now : Nat) (s : FeedState) : FeedState × List WireCmd :=
  let s := { s with ws := true }
  let s :=
    if s.connected_at.isSome then
      { s with reconnect_count := s.reconnect_count + 1 }
    else s
  let s := { s with connected_at := some now, connected := true }
  let s := { s with sids := [], pending_subs := [] }
  replaySubs s.active_subs s

/-- `AsyncFeed.disconnect`: mark not connected; if a transport handle is
present, close it — a close-time error (`closeRaises`) is swallowed by the
`try/except: pass` — and drop the handle.  The resulting state does not
depend on `closeRaises`. -/
def disconnect (closeRaises : Bool) (s : FeedState) : FeedState :=
  { s with connected := false, ws := false }

/-- `AsyncFeed.unsubscribe`: build the target params, collect the confirmed
subscription ids whose params equal the target, delete them from
`self._sids`, drop matching entries from `self._active_subs`, and — only
if at least one matching sid existed and a transport handle is present —
send a single unsubscribe command carrying all of them. -/
def unsubscribe (channel : String) (mt : Option String) (mts : Option (List String))
    (s : FeedState) : FeedState × List WireCmd :=
  let target := mkParams channel mt mts
  let sids_to_remove := (s.sids.filter (fun kv => kv.2 == target)).map (·.1)
  let s := { s with sids := s.sids.filter (fun kv => !(kv.2 == target)) }
  let s := { s with active_subs := s.active_subs.filter (fun p => !(p == target)) }
  if !sids_to_remove.isEmpty && s.ws then
    let r := sendCmd "unsubscribe" (.unsub sids_to_remove) s
    (r.2.1, r.2.2)
  else
    (s, [])

/-- The `msg_type == "subscribed"` branch of `AsyncFeed.__aiter__`
(confirmation tracking): if the frame carries a sid, pop the pending entry
for the frame's command id; if one was pending, record `sid → params` in
`self._sids`.  A missing sid, missing id, or unknown id leaves the state
unchanged. -/
def handleSubscribed (cmdId : Option Nat) (sid : Option Nat) (s : FeedState) :
    FeedState :=
  match sid with
  | none => s
  | some sid =>
    match cmdId with
    | none => s
    | some cid =>
      match dictLookup cid s.pending_subs with
      | none => s
      | some params =>
        { s with pending_subs := dictRemove cid s.pending_subs
                 sids := dictInsert sid params s.sids }

/-- What one registered handler does when invoked on a payload: return
normally or raise an exception (carrying its message). -/
inductive HandlerResult
  | ok
  | exc (msg : String)
deriving DecidableEq, Repr

/-- Observable actions of one iteration of the frame loop in
`AsyncFeed.__aiter__`: a handler was invoked (with its outcome), an
exception was logged by `logger.exception`, or a parsed payload was
yielded to the caller. -/
inductive LoopAction (α : Type)
  | invoked (result : HandlerResult)
  | logged (msg : String)
  | yielded (x : α)
deriving DecidableEq, Repr

/-- The result of `LoopAction.invoked`, if this action is one. -/
def LoopAction.invokedResult : LoopAction α → Option HandlerResult
  | .invoked r => some r
  | _ => none

/-- Whether this action yields a payload to the output sequence. -/
def LoopAction.isYield : LoopAction α → Bool
  | .yielded _ => true
  | _ => false

/-- The message of `LoopAction.logged`, if this action is one. -/
def LoopAction.loggedMsg : LoopAction α → Option String
  | .logged m => some m
  | _ => none

/-- A frame as classified by `_parse_message` (external collaborator from
`pykalshi/feed.py`): unrecognized (`msg_type is None`), a subscription
acknowledgment with optional command id and sid, or a data frame carrying
a channel, a parsed payload, and an optional server timestamp. -/
inductive Frame (α : Type)
  | unrecognized
  | subscribed (cmdId : Option Nat) (sid : Option Nat)
  | data (channel : String) (parsed : α) (ts : Option Int)
deriving DecidableEq, Repr

/-- `self._handlers.get(channel, [])`. -/
def lookupHandlers {α : Type} (channel : String)
    (table : List (String × List (α → HandlerResult))) :
    List (α → HandlerResult) :=
  ((table.find? (fun kv => kv.1 == channel)).map (·.2)).getD []

/-- The `for handler in self._handlers.get(channel, []):` loop: invoke each
handler on the parsed payload; an exception is caught and logged and the
loop continues with the next handler. -/
def runHandlers {α : Type} (parsed : α) :
    List (α → HandlerResult) → List (LoopAction α)
  | [] => []
  | h :: rest =>
    match h parsed with
    | .ok => .invoked .ok :: runHandlers parsed rest
    | .exc m => .invoked (.exc m) :: .logged m :: runHandlers parsed rest

/-- The per-frame body of the `async for raw in self._ws:` loop in
`AsyncFeed.__aiter__`: bump the message counters, then dispatch on the
parsed frame — skip unrecognized frames, route acknowledgments to the
confirmation tracking (yielding nothing), and for data frames record the
server timestamp, run the channel's handlers, and yield the payload. -/
def processFrame {α : Type} (now : Nat)
    (table : List (String × List (α → HandlerResult)))
    (fr : Frame α) (s : FeedState) : FeedState × List (LoopAction α) :=
  let s := { s with last_message_at := some now, message_count := s.message_count + 1 }
  match fr with
  | .unrecognized => (s, [])
  | .subscribed cmdId sid => (handleSubscribed cmdId sid s, [])
  | .data channel parsed ts =>
    let s :=
      match ts with
      | some t => { s with last_server_ts := some t }
      | none => s
    (s, runHandlers parsed (lookupHandlers channel table) ++ [.yielded parsed])

/-- Exceptions of the embedded Python fragment that `AsyncFeed.connect`
can raise: `ImportError` (the `websockets` import failed), a transport
error from the handshake, or `asyncio.CancelledError`. -/
inductive PyError
  | importError (msg : String)
  | transportError (name : String)
  | cancelledError
deriving DecidableEq, Repr

/-- The `ImportError` message raised by `AsyncFeed.connect` when the
`websockets` package is absent. -/
def wsImportMsg : String :=
  "websockets is required for AsyncFeed. Install with: pip install websockets"

/-- `AsyncFeed.connect` with its failure paths: re-raise `ImportError` when
the `websockets` import fails, raise the transport error when the
handshake fails (the feed state is untouched in both cases, since the
raise happens before any assignment), otherwise run the successful body. -/
def connectE (websocketsAvailable : Bool) (transportOk : Bool) (now : Nat)
    (s : FeedState) : Except PyError (FeedState × List WireCmd) :=
  if !websocketsAvailable then
    .error (.importError wsImportMsg)
  else if !transportOk then
    .error (.transportError "ConnectionError")
  else
    .ok (connect now s)

/-- The `except Exception` branch of `AsyncFeed.__aiter__` (lines 222-224):
mark disconnected and drop the transport handle; the backoff sleep follows. -/
def dropExc (s : FeedState) : FeedState :=
  { s with connected := false, ws := false }

/-- The outcome of one iteration of the `while True:` loop in
`AsyncFeed.__aiter__`: either the loop continues (with a new state, a new
backoff value, and the sleeps performed), or the generator returned. -/
inductive IterResult
  | cont (s : FeedState) (backoff : ℚ) (sleeps : List ℚ)
  | stopped (s : FeedState)
deriving DecidableEq, Repr

/-- Whether this iteration ended the output sequence. -/
def IterResult.isStopped : IterResult → Bool
  | .stopped _ => true
  | _ => false

/-- An exception reaching the `try` of the `while True:` loop:
`asyncio.CancelledError`, or any other `Exception` (by its class name). -/
inductive IterSignal
  | cancelled
  | raised (name : String)
deriving DecidableEq, Repr

/-- The exception handlers of the `while True:` loop in
`AsyncFeed.__aiter__`: `except asyncio.CancelledError` disconnects and
returns; `except Exception` marks disconnected, sleeps for the current
backoff, and doubles it up to the 30-second cap. -/
def handleSignal (closeRaises : Bool) (sig : IterSignal) (s : FeedState)
    (backoff : ℚ) : IterResult :=
  match sig with
  | .cancelled => .stopped (disconnect closeRaises s)
  | .raised _ => .cont (dropExc s) (min (backoff * 2) 30) [backoff]

/-- The connect phase of one loop iteration (lines 177-179 plus the
exception handlers): call `connect()`; on success reset the backoff to
0.5 and continue into the stream; an exception is dispatched to
`handleSignal` — `CancelledError` stops the loop, everything else
(including `ImportError`) goes through the backoff path. -/
def loopConnectPhase (closeRaises websocketsAvailable transportOk : Bool)
    (now : Nat) (s : FeedState) (backoff : ℚ) : IterResult :=
  match connectE websocketsAvailable transportOk now s with
  | .ok r => .cont r.1 (1/2) []
  | .error .cancelledError => handleSignal closeRaises .cancelled s backoff
  | .error (.importError _) => handleSignal closeRaises (.raised "ImportError") s backoff
  | .error (.transportError n) => handleSignal closeRaises (.raised n) s backoff

/-- Iteration-level events for the backoff analysis of
`AsyncFeed.__aiter__`: a successful `connect()` (which resets the backoff
to 0.5), or a failure — connect failure or mid-stream drop — which hits
the `except Exception` branch. -/
inductive LoopEvent
  | success
  | failure
deriving DecidableEq, Repr

/-- The backoff component of `AsyncFeed.__aiter__`: starting from the
current backoff value, fold the loop events, recording each sleep. On
success `backoff = 0.5`; on failure `sleep(backoff)` then
`backoff = min(backoff * 2, max_backoff)` with `max_backoff = 30`. -/
def backoffRun : ℚ → List LoopEvent → ℚ × List ℚ
  | b, [] => (b, [])
  | _, .success :: rest => backoffRun (1/2) rest
  | b, .failure :: rest =>
    let r := backoffRun (min (b * 2) 30) rest
    (r.1, b :: r.2)

/-- External events driving one `AsyncFeed` instance: the public calls,
a successful connect, a mid-stream drop, and an inbound acknowledgment. -/
inductive FeedEvent
  | subscribeTo (channel : String) (mt : Option String) (mts : Option (List String))
  | unsubscribeFrom (channel : String) (mt : Option String) (mts : Option (List String))
  | connectAt (now : Nat)
  | disconnectCall (closeRaises : Bool)
  | drop
  | ack (cmdId : Option Nat) (sid : Option Nat)
deriving DecidableEq, Repr

/-- One event applied to a feed state: the resulting state, the wire
commands transmitted, and the command ids assigned by `_send_cmd` during
the event (an id is assigned even when nothing is transmitted). -/
def stepEvent : FeedEvent → FeedState → FeedState × List WireCmd × List Nat
  | .subscribeTo ch mt mts, s => (subscribe ch mt mts s, [], [])
  | .unsubscribeFrom ch mt mts, s =>
    let r := unsubscribe ch mt mts s
    (r.1, r.2, r.2.map (·.id))
  | .connectAt now, s =>
    let r := connect now s
    (r.1, r.2, r.2.map (·.id))
  | .disconnectCall cr, s => (disconnect cr s, [], [])
  | .drop, s => (dropExc s, [], [])
  | .ack cmdId sid, s => (handleSubscribed cmdId sid s, [], [])

/-- Run a sequence of events from a state, concatenating the transmitted
commands and the assigned command ids. -/
def runEvents : List FeedEvent → FeedState → FeedState × List WireCmd × List Nat
  | [], s => (s, [], [])
  | ev :: rest, s =>
    let r1 := stepEvent ev s
    let r2 := runEvents rest r1.1
    (r2.1, r1.2.1 ++ r2.2.1, r1.2.2 ++ r2.2.2)

/-! ### Helper lemmas -/

/-- Inserting a key absent from the dict appends the pair. -/
lemma dictInsert_of_fresh (k : Nat) (v : SubParams) (d : List (Nat × SubParams))
    (h : ∀ kv ∈ d, kv.1 ≠ k) : dictInsert k v d = d ++ [(k, v)] := by
  unfold dictInsert
  have hany : d.any (fun kv => kv.1 == k) = false := by
    simp only [List.any_eq_false, beq_iff_eq]
    exact h
  simp [hany]

/-- `replaySubs` with a live transport: every entry of the list is sent as
one subscribe command, ids are drawn consecutively from the counter, and
each is appended to the pending map; nothing else changes. -/
lemma replaySubs_spec (l : List SubParams) (s : FeedState)
    (hws : s.ws = true)
    (hkeys : ∀ kv ∈ s.pending_subs, kv.1 < s.cmd_id_counter) :
    (replaySubs l s).2 =
      ((List.range' s.cmd_id_counter l.length).zip l).map
        (fun p => WireCmd.mk p.1 "subscribe" (.sub p.2)) ∧
    (replaySubs l s).1.pending_subs =
      s.pending_subs ++ (List.range' s.cmd_id_counter l.length).zip l ∧
    (replaySubs l s).1.cmd_id_counter = s.cmd_id_counter + l.length ∧
    (replaySubs l s).1.sids = s.sids ∧
    (replaySubs l s).1.active_subs = s.active_subs ∧
    (replaySubs l s).1.ws = s.ws ∧
    (replaySubs l s).1.connected = s.connected ∧
    (replaySubs l s).1.connected_at = s.connected_at ∧
    (replaySubs l s).1.reconnect_count = s.reconnect_count := by
  induction l generalizing s with
  | nil => simp [replaySubs]
  | cons p rest ih =>
    have hsub :
        subscribeAndTrack p s =
          ({ s with cmd_id_counter := s.cmd_id_counter + 1,
                    pending_subs := s.pending_subs ++ [(s.cmd_id_counter, p)] },
           [WireCmd.mk s.cmd_id_counter "subscribe" (.sub p)]) := by
      unfold subscribeAndTrack sendCmd
      simp only [hws, if_true]
      rw [dictInsert_of_fresh]
      intro kv hkv
      exact Nat.ne_of_lt (hkeys kv hkv)
    have hkeys' :
        ∀ kv ∈ s.pending_subs ++ [(s.cmd_id_counter, p)],
          kv.1 < s.cmd_id_counter + 1 := by
      intro kv hkv
      rcases List.mem_append.mp hkv with h | h
      · exact Nat.lt_succ_of_lt (hkeys kv h)
      · simp only [List.mem_singleton] at h
        subst h
        exact Nat.lt_succ_self _
    have ihr := ih ({ s with cmd_id_counter := s.cmd_id_counter + 1,
                             pending_subs := s.pending_subs ++ [(s.cmd_id_counter, p)] })
      hws hkeys'
    simp only [replaySubs, hsub] at *
    obtain ⟨h1, h2, h3, h4, h5, h6, h7, h8, h9⟩ := ihr
    refine ⟨?_, ?_, ?_, h4, h5, h6, h7, h8, h9⟩
    · rw [h1]
      simp [List.range'_succ, List.zip_cons_cons]
    · rw [h2]
      simp [List.range'_succ, List.zip_cons_cons]
    · rw [h3]
      simp only [List.length_cons]
      omega

/-- The state that `connect` has built just before it replays the
active-subscription list: transport handle stored, reconnect counter
bumped when appropriate, connection recorded, per-connection maps cleared. -/
def connBase (now : Nat) (s : FeedState) : FeedState :=
  { s with ws := true
           reconnect_count :=
             if s.connected_at.isSome then s.reconnect_count + 1
             else s.reconnect_count
           connected_at := some now
           connected := true
           sids := []
           pending_subs := [] }

/-- `connect` is the replay of the active subscriptions from `connBase`. -/
lemma connect_eq (now : Nat) (s : FeedState) :
    connect now s = replaySubs s.active_subs (connBase now s) := by
  unfold connect connBase
  rcases h : s.connected_at.isSome <;> simp [h]

/-- `handleSubscribed` never touches the command-id counter. -/
lemma handleSubscribed_counter (cmdId sid : Option Nat) (s : FeedState) :
    (handleSubscribed cmdId sid s).cmd_id_counter = s.cmd_id_counter := by
  cases sid with
  | none => rfl
  | some sid =>
    cases cmdId with
    | none => rfl
    | some cid =>
      cases h : dictLookup cid s.pending_subs <;>
        simp [handleSubscribed, h]

/-- Each event assigns a consecutive block of command ids starting at the
current counter, and advances the counter by exactly that many. -/
lemma stepEvent_assigned (ev : FeedEvent) (s : FeedState) :
    ∃ k, (stepEvent ev s).2.2 = List.range' s.cmd_id_counter k ∧
      (stepEvent ev s).1.cmd_id_counter = s.cmd_id_counter + k := by
  cases ev with
  | subscribeTo ch mt mts =>
    exact ⟨0, by simp [stepEvent, subscribe], by simp [stepEvent, subscribe]⟩
  | unsubscribeFrom ch mt mts =>
    unfold stepEvent unsubscribe
    by_cases hws : s.ws = true
    · by_cases hne :
          ((s.sids.filter
              (fun kv => kv.2 == mkParams ch mt mts)).map (·.1)).isEmpty = true
      · refine ⟨0, ?_, ?_⟩ <;> simp [hne, hws]
      · refine ⟨1, ?_, ?_⟩ <;>
          simp [hne, hws, sendCmd, List.range'_one]
    · have hws' : s.ws = false := by simpa using hws
      refine ⟨0, ?_, ?_⟩ <;> simp [hws']
  | connectAt now =>
    have hkeys : ∀ kv ∈ (connBase now s).pending_subs,
        kv.1 < (connBase now s).cmd_id_counter := by
      intro kv hkv
      simp [connBase] at hkv
    have hr := replaySubs_spec (connBase now s).active_subs (connBase now s)
      rfl hkeys
    have hact : (connBase now s).active_subs = s.active_subs := rfl
    have hctr : (connBase now s).cmd_id_counter = s.cmd_id_counter := rfl
    refine ⟨s.active_subs.length, ?_, ?_⟩
    · show (connect now s).2.map (·.id) = _
      rw [connect_eq, ← hact, hr.1, List.map_map]
      calc (((List.range' (connBase now s).cmd_id_counter
              (connBase now s).active_subs.length).zip
              (connBase now s).active_subs).map
            ((·.id) ∘ fun p => WireCmd.mk p.1 "subscribe" (.sub p.2)))
          = ((List.range' (connBase now s).cmd_id_counter
              (connBase now s).active_subs.length).zip
              (connBase now s).active_subs).map Prod.fst := by
            apply List.map_congr_left
            intro a _
            rfl
        _ = List.range' (connBase now s).cmd_id_counter
              (connBase now s).active_subs.length := by
            apply List.map_fst_zip
            simp
        _ = List.range' s.cmd_id_counter s.active_subs.length := by
            rw [hctr, hact]
    · show (connect now s).1.cmd_id_counter = _
      rw [connect_eq, ← hact]
      rw [hr.2.2.1, hctr, hact]
  | disconnectCall cr =>
    exact ⟨0, by simp [stepEvent, disconnect], by simp [stepEvent, disconnect]⟩
  | drop =>
    exact ⟨0, by simp [stepEvent, dropExc], by simp [stepEvent, dropExc]⟩
  | ack cmdId sid =>
    exact ⟨0, by simp [stepEvent], by simp [stepEvent, handleSubscribed_counter]⟩

/-- Over any event sequence, the assigned command ids form the consecutive
block starting at the initial counter value. -/
lemma runEvents_assigned (evs : List FeedEvent) (s : FeedState) :
    ∃ K, (runEvents evs s).2.2 = List.range' s.cmd_id_counter K ∧
      (runEvents evs s).1.cmd_id_counter = s.cmd_id_counter + K := by
  induction evs generalizing s with
  | nil => exact ⟨0, by simp [runEvents], by simp [runEvents]⟩
  | cons ev rest ih =>
    obtain ⟨k, hk1, hk2⟩ := stepEvent_assigned ev s
    obtain ⟨K, hK1, hK2⟩ := ih (stepEvent ev s).1
    refine ⟨K + k, ?_, ?_⟩
    · show (stepEvent ev s).2.2 ++ (runEvents rest (stepEvent ev s).1).2.2 = _
      rw [hk1, hK1, hk2, List.range'_append_1]
    · show (runEvents rest (stepEvent ev s).1).1.cmd_id_counter = _
      rw [hK2, hk2]
      omega

/-! ### Claim theorems -/

/-- C1: every successful `connect()` first clears the pending-command and
confirmed-subscription maps and then sends exactly one subscribe command
per entry of the active-subscription list, in list order, recording each
sent command as pending; the commands sent equal exactly the current
active-subscription list regardless of previous pending/confirmed state. -/
theorem connect_replays_active_subscriptions (now : Nat) (s : FeedState) :
    ((connect now s).2.map (·.params)) = s.active_subs.map CmdParams.sub ∧
    ((connect now s).2.map (·.cmd)) = s.active_subs.map (fun _ => "subscribe") ∧
    ((connect now s).2.map (·.id)) =
      List.range' s.cmd_id_counter s.active_subs.length ∧
    (connect now s).1.pending_subs =
      (List.range' s.cmd_id_counter s.active_subs.length).zip s.active_subs ∧
    (connect now s).1.sids = [] := by
  have hkeys : ∀ kv ∈ (connBase now s).pending_subs,
      kv.1 < (connBase now s).cmd_id_counter := by
    intro kv hkv
    simp [connBase] at hkv
  have hr := replaySubs_spec (connBase now s).active_subs (connBase now s)
    rfl hkeys
  have hact : (connBase now s).active_subs = s.active_subs := rfl
  have hctr : (connBase now s).cmd_id_counter = s.cmd_id_counter := rfl
  have hzip : ((List.range' (connBase now s).cmd_id_counter
        (connBase now s).active_subs.length).zip
        (connBase now s).active_subs).map Prod.snd
      = (connBase now s).active_subs := by
    apply List.map_snd_zip
    simp
  refine ⟨?_, ?_, ?_, ?_, ?_⟩
  · rw [connect_eq, ← hact, hr.1, List.map_map]
    calc (((List.range' (connBase now s).cmd_id_counter
            (connBase now s).active_subs.length).zip
            (connBase now s).active_subs).map
          ((·.params) ∘ fun p => WireCmd.mk p.1 "subscribe" (.sub p.2)))
        = (((List.range' (connBase now s).cmd_id_counter
            (connBase now s).active_subs.length).zip
            (connBase now s).active_subs).map Prod.snd).map CmdParams.sub := by
          rw [List.map_map]
          apply List.map_congr_left; intro a _; rfl
      _ = s.active_subs.map CmdParams.sub := by rw [hzip, hact]
  · rw [connect_eq, ← hact, hr.1, List.map_map]
    calc (((List.range' (connBase now s).cmd_id_counter
            (connBase now s).active_subs.length).zip
            (connBase now s).active_subs).map
          ((·.cmd) ∘ fun p => WireCmd.mk p.1 "subscribe" (.sub p.2)))
        = (((List.range' (connBase now s).cmd_id_counter
            (connBase now s).active_subs.length).zip
            (connBase now s).active_subs).map Prod.snd).map
            (fun _ => "subscribe") := by
          rw [List.map_map]
          apply List.map_congr_left; intro a _; rfl
      _ = s.active_subs.map (fun _ => "subscribe") := by rw [hzip, hact]
  · rw [connect_eq, ← hact, hr.1, List.map_map]
    calc (((List.range' (connBase now s).cmd_id_counter
            (connBase now s).active_subs.length).zip
            (connBase now s).active_subs).map
          ((·.id) ∘ fun p => WireCmd.mk p.1 "subscribe" (.sub p.2)))
        = ((List.range' (connBase now s).cmd_id_counter
            (connBase now s).active_subs.length).zip
            (connBase now s).active_subs).map Prod.fst := by
          apply List.map_congr_left; intro a _; rfl
      _ = List.range' (connBase now s).cmd_id_counter
            (connBase now s).active_subs.length := by
          apply List.map_fst_zip; simp
      _ = List.range' s.cmd_id_counter s.active_subs.length := by
          rw [hctr, hact]
  · rw [connect_eq, ← hact, hr.2.1, hctr, hact]
    rfl
  · rw [connect_eq, ← hact, hr.2.2.2.1]
    rfl

/-- C2: over any event sequence from a fresh instance, the command ids
assigned by `_send_cmd` are exactly `1, 2, 3, …` — strictly increasing,
starting at 1, never repeating, across any number of reconnects; and
`_send_cmd` without a connection assigns a fresh id, transmits nothing
and raises nothing. -/
theorem command_ids_strictly_increasing (evs : List FeedEvent) :
    (runEvents evs initFeedState).2.2 =
      List.range' 1 (runEvents evs initFeedState).2.2.length ∧
    List.Pairwise (· < ·) (runEvents evs initFeedState).2.2 ∧
    ∀ (cmd : String) (params : CmdParams) (s : FeedState),
      sendCmd cmd params { s with ws := false } =
        (s.cmd_id_counter,
         { s with ws := false, cmd_id_counter := s.cmd_id_counter + 1 },
         []) := by
  obtain ⟨K, hK1, hK2⟩ := runEvents_assigned evs initFeedState
  have hctr : initFeedState.cmd_id_counter = 1 := rfl
  rw [hctr] at hK1
  refine ⟨?_, ?_, ?_⟩
  · rw [hK1]; simp
  · rw [hK1]
    exact List.pairwise_lt_range' 1 K
  · intro cmd params s
    simp [sendCmd]

/-- C10: `subscribe` — connected or not — only appends one entry (with
ticker values upper-cased) to the active-subscription list: no command is
transmitted, no command id is assigned, and every other field of the
state is unchanged. -/
theorem subscribe_only_appends (ch : String) (mt : Option String)
    (mts : Option (List String)) (s : FeedState) :
    stepEvent (.subscribeTo ch mt mts) s =
      ({ s with active_subs := s.active_subs ++ [mkParams ch mt mts] }, [], []) ∧
    (mkParams ch mt mts).market_ticker = mt.map String.toUpper ∧
    (mkParams ch mt mts).market_tickers =
      mts.map (fun l => l.map String.toUpper) := by
  refine ⟨rfl, rfl, ?_⟩
  cases mts <;> rfl

/-- C3: an acknowledgment carrying command id `c` and subscription id
`sid` removes the pending entry for `c` and maps `sid` to its parameters
when `c` is pending; when `c` is not pending it leaves the whole state —
in particular the confirmed-subscription map — unchanged, raising
nothing; in both cases the frame produces no handler invocation and no
yield. -/
theorem ack_confirm_or_discard (c sid : Nat) (s : FeedState) (now : Nat)
    (table : List (String × List (Nat → HandlerResult))) :
    (∀ p, dictLookup c s.pending_subs = some p →
      handleSubscribed (some c) (some sid) s =
        { s with pending_subs := dictRemove c s.pending_subs
                 sids := dictInsert sid p s.sids }) ∧
    (dictLookup c s.pending_subs = none →
      handleSubscribed (some c) (some sid) s = s) ∧
    (processFrame now table (.subscribed (some c) (some sid)) s).2 = [] := by
  refine ⟨?_, ?_, rfl⟩
  · intro p hp
    simp [handleSubscribed, hp]
  · intro hp
    simp [handleSubscribed, hp]

/-- Witness for C3 at concrete inputs: a pending ack is confirmed, a
stale ack is discarded without touching the state. -/
theorem ack_confirm_or_discard_witness :
    handleSubscribed (some 1) (some 7)
        { initFeedState with
          pending_subs := [(1, SubParams.mk ["ticker"] none none)] } =
      { initFeedState with
        pending_subs := []
        sids := [(7, SubParams.mk ["ticker"] none none)] } ∧
    handleSubscribed (some 1) (some 7) initFeedState = initFeedState := by
  constructor
  · exact ((ack_confirm_or_discard 1 7
      { initFeedState with
        pending_subs := [(1, SubParams.mk ["ticker"] none none)] } 0 []).1
      (SubParams.mk ["ticker"] none none) rfl).trans (by decide)
  · exact (ack_confirm_or_discard 1 7 initFeedState 0 []).2.1 rfl

/-- C4: `unsubscribe` removes all structurally matching entries from the
active-subscription list and the confirmed-subscription map; when at
least one matching confirmed id exists and a transport handle is present
it sends exactly one unsubscribe command carrying all matching ids; when
none exists it sends nothing. -/
theorem unsubscribe_removes_and_sends_once (ch : String) (mt : Option String)
    (mts : Option (List String)) (s : FeedState) :
    (unsubscribe ch mt mts s).1.active_subs =
      s.active_subs.filter (fun p => !(p == mkParams ch mt mts)) ∧
    (unsubscribe ch mt mts s).1.sids =
      s.sids.filter (fun kv => !(kv.2 == mkParams ch mt mts)) ∧
    ((s.sids.filter (fun kv => kv.2 == mkParams ch mt mts)).map (·.1) ≠ [] →
      s.ws = true →
      (unsubscribe ch mt mts s).2 =
        [⟨s.cmd_id_counter, "unsubscribe",
          .unsub ((s.sids.filter (fun kv => kv.2 == mkParams ch mt mts)).map (·.1))⟩]) ∧
    ((s.sids.filter (fun kv => kv.2 == mkParams ch mt mts)).map (·.1) = [] →
      (unsubscribe ch mt mts s).2 = []) := by
  unfold unsubscribe
  by_cases hM :
      (s.sids.filter (fun kv => kv.2 == mkParams ch mt mts)).map (·.1) = []
  · have hE :
        ((s.sids.filter (fun kv => kv.2 == mkParams ch mt mts)).map (·.1)).isEmpty
          = true := by
      rw [hM]; rfl
    refine ⟨?_, ?_, ?_, ?_⟩ <;> simp [hE, hM]
  · have hE :
        ((s.sids.filter (fun kv => kv.2 == mkParams ch mt mts)).map (·.1)).isEmpty
          = false := by
      cases h : (s.sids.filter (fun kv => kv.2 == mkParams ch mt mts)).map (·.1) with
      | nil => exact absurd h hM
      | cons a l => rfl
    by_cases hws : s.ws = true
    · refine ⟨?_, ?_, ?_, ?_⟩ <;> simp [hE, hws, hM, sendCmd]
    · have hws' : s.ws = false := by simpa using hws
      refine ⟨?_, ?_, ?_, ?_⟩ <;> simp [hE, hws', hM]

/-- Witness for C4: with two confirmed subscriptions matching the request
and a live transport, one unsubscribe command carries both ids; with no
matching confirmed subscription, nothing is sent. -/
theorem unsubscribe_removes_and_sends_once_witness :
    (unsubscribe "ticker" none none
      { initFeedState with
        sids := [(3, SubParams.mk ["ticker"] none none),
                 (4, SubParams.mk ["ticker"] none none)]
        ws := true }).2 =
      [⟨1, "unsubscribe", .unsub [3, 4]⟩] ∧
    (unsubscribe "ticker" none none initFeedState).2 = [] := by
  constructor
  · exact ((unsubscribe_removes_and_sends_once "ticker" none none
      { initFeedState with
        sids := [(3, SubParams.mk ["ticker"] none none),
                 (4, SubParams.mk ["ticker"] none none)]
        ws := true }).2.2.1 (by decide) rfl).trans (by decide)
  · exact (unsubscribe_removes_and_sends_once "ticker" none none
      initFeedState).2.2.2 (by decide)

/-- Sleeps produced by `n` consecutive failures from backoff `b`:
`b, min(2b,30), min(4b,30), …`. -/
lemma backoffRun_failures (n : Nat) : ∀ b : ℚ, 0 ≤ b → b ≤ 30 →
    (backoffRun b (List.replicate n .failure)).2 =
      (List.range n).map (fun i => min (b * 2 ^ i) 30) := by
  induction n with
  | zero => intro b hb0 hb30; simp [backoffRun]
  | succ n ih =>
    intro b hb0 hb30
    have h1 : (0:ℚ) ≤ min (b * 2) 30 := le_min (by positivity) (by norm_num)
    have h2 : min (b * 2) 30 ≤ 30 := min_le_right _ _
    rw [List.replicate_succ]
    simp only [backoffRun]
    rw [ih (min (b * 2) 30) h1 h2, List.range_succ_eq_map]
    simp only [List.map_cons, List.map_map]
    congr 1
    · rw [pow_zero, mul_one, min_eq_left hb30]
    · apply List.map_congr_left
      intro i _
      show min (min (b * 2) 30 * 2 ^ i) 30 = min (b * 2 ^ (i + 1)) 30
      have h2i : (1:ℚ) ≤ 2 ^ i := by
        calc (1:ℚ) = 1 ^ i := (one_pow i).symm
          _ ≤ 2 ^ i := pow_le_pow_left₀ (by norm_num) (by norm_num) i
      rcases le_or_lt (b * 2) 30 with h | h
      · rw [min_eq_left h]
        congr 1
        ring
      · rw [min_eq_right (le_of_lt h)]
        have ha : (30:ℚ) ≤ 30 * 2 ^ i := by nlinarith
        have hb : (30:ℚ) ≤ b * 2 ^ (i + 1) := by
          have : (30:ℚ) * 1 ≤ (b * 2) * 2 ^ i := by
            apply mul_le_mul (le_of_lt h) h2i (by norm_num)
            linarith
          calc (30:ℚ) = 30 * 1 := by ring
            _ ≤ (b * 2) * 2 ^ i := this
            _ = b * 2 ^ (i + 1) := by ring
        rw [min_eq_right ha, min_eq_right hb]

/-- `backoffRun` splits over list concatenation. -/
lemma backoffRun_append (b : ℚ) (l1 l2 : List LoopEvent) :
    backoffRun b (l1 ++ l2) =
      ((backoffRun (backoffRun b l1).1 l2).1,
       (backoffRun b l1).2 ++ (backoffRun (backoffRun b l1).1 l2).2) := by
  induction l1 generalizing b with
  | nil => simp [backoffRun]
  | cons e rest ih =>
    cases e with
    | success => simpa [backoffRun] using ih (1/2)
    | failure => simp [backoffRun, ih]

/-- C5: starting from the loop's initial backoff of 0.5, `n` consecutive
failures sleep `0.5, 1, 2, 4, …` doubling and capped at 30; and after any
prefix ending in a successful `connect()` the very same sequence restarts
at 0.5. -/
theorem backoff_doubles_capped_and_resets (pre : List LoopEvent) (n : Nat) :
    (backoffRun (1/2) (List.replicate n .failure)).2 =
      (List.range n).map (fun i => min ((1/2) * 2 ^ i) 30) ∧
    (backoffRun (1/2) (pre ++ .success :: List.replicate n .failure)).2 =
      (backoffRun (1/2) pre).2 ++
        (List.range n).map (fun i => min ((1/2) * 2 ^ i) 30) := by
  have hseq := backoffRun_failures n (1/2) (by norm_num) (by norm_num)
  refine ⟨hseq, ?_⟩
  rw [backoffRun_append]
  show (backoffRun (1/2) pre).2 ++
      (backoffRun (backoffRun (1/2) pre).1
        (LoopEvent.success :: List.replicate n LoopEvent.failure)).2 = _
  simp only [backoffRun]
  rw [hseq]

/-- The dispatch trace of the handler loop: every handler is invoked, in
order, on the parsed payload; exceptions are logged; nothing is yielded
inside the handler loop itself. -/
lemma runHandlers_spec {α : Type} (parsed : α) (hs : List (α → HandlerResult)) :
    (runHandlers parsed hs).filterMap LoopAction.invokedResult =
      hs.map (fun h => h parsed) ∧
    (runHandlers parsed hs).filterMap LoopAction.loggedMsg =
      (hs.map (fun h => h parsed)).filterMap
        (fun r => match r with | .ok => none | .exc m => some m) ∧
    (runHandlers parsed hs).filter LoopAction.isYield = [] := by
  induction hs with
  | nil => simp [runHandlers]
  | cons h rest ih =>
    cases hr : h parsed with
    | ok =>
      simpa [runHandlers, hr, LoopAction.invokedResult, LoopAction.loggedMsg,
        LoopAction.isYield] using ih
    | exc m =>
      simpa [runHandlers, hr, LoopAction.invokedResult, LoopAction.loggedMsg,
        LoopAction.isYield] using ih

/-- C6: for a data frame on a channel, every registered handler is invoked
in registration order with the parsed payload; a handler exception is
logged, does not propagate, and does not skip the remaining handlers; the
parsed payload is yielded exactly once, after all handlers have run. -/
theorem handlers_isolated_and_yield_once {α : Type} (now : Nat)
    (table : List (String × List (α → HandlerResult))) (ch : String)
    (parsed : α) (ts : Option Int) (s : FeedState) :
    (processFrame now table (.data ch parsed ts) s).2.filterMap
        LoopAction.invokedResult =
      (lookupHandlers ch table).map (fun h => h parsed) ∧
    (processFrame now table (.data ch parsed ts) s).2.filterMap
        LoopAction.loggedMsg =
      ((lookupHandlers ch table).map (fun h => h parsed)).filterMap
        (fun r => match r with | .ok => none | .exc m => some m) ∧
    (processFrame now table (.data ch parsed ts) s).2.filter
        LoopAction.isYield = [.yielded parsed] ∧
    (processFrame now table (.data ch parsed ts) s).2.getLast? =
      some (.yielded parsed) := by
  have hacts : (processFrame now table (.data ch parsed ts) s).2 =
      runHandlers parsed (lookupHandlers ch table) ++ [.yielded parsed] := by
    unfold processFrame
    cases ts <;> rfl
  have hr := runHandlers_spec parsed (lookupHandlers ch table)
  refine ⟨?_, ?_, ?_, ?_⟩
  · rw [hacts, List.filterMap_append, hr.1]
    simp [LoopAction.invokedResult]
  · rw [hacts, List.filterMap_append, hr.2.1]
    simp [LoopAction.loggedMsg]
  · rw [hacts, List.filter_append, hr.2.2]
    simp [LoopAction.isYield]
  · rw [hacts]
    simp

/-- C9: the only way the feed's output sequence terminates is the
`CancelledError` branch, which runs `disconnect` (whose result is the
same whether or not closing the transport raises) before the generator
returns; every other exception continues the loop via backoff, producing
a non-terminal outcome. -/
theorem cancellation_stops_loop (cr : Bool) (s : FeedState) (b : ℚ) :
    handleSignal cr .cancelled s b = .stopped (disconnect cr s) ∧
    (disconnect cr s).connected = false ∧
    (disconnect cr s).ws = false ∧
    disconnect cr s = disconnect (!cr) s ∧
    (∀ sig, (handleSignal cr sig s b).isStopped = true ↔ sig = .cancelled) := by
  refine ⟨rfl, rfl, rfl, rfl, ?_⟩
  intro sig
  cases sig <;> simp [handleSignal, IterResult.isStopped]

/-- C7 counterexample: with the `websockets` package absent, `connect()`
does raise `ImportError`, but inside the feed's iteration loop that
exception is caught by the generic `except Exception` handler and
retried with backoff — the loop's outcome for the very first iteration
is a backoff continuation, not a termination that surfaces the error. -/
theorem import_error_retried_counterexample :
    connectE false true 0 initFeedState = .error (.importError wsImportMsg) ∧
    loopConnectPhase false false true 0 initFeedState (1/2) =
      .cont (dropExc initFeedState) 1 [1/2] ∧
    (loopConnectPhase false false true 0 initFeedState (1/2)).isStopped
      = false := by
  refine ⟨rfl, ?_, rfl⟩
  show IterResult.cont (dropExc initFeedState) (min ((1/2 : ℚ) * 2) 30) [1/2] = _
  norm_num

/-- C7 amended: a missing `websockets` dependency makes `connect()` raise
`ImportError` to its direct caller; when `connect()` is invoked from the
iteration loop, that `ImportError` is caught by the loop's generic
exception handler and retried with backoff like any other connect
failure, rather than being surfaced. -/
theorem import_error_amended (cr tOk : Bool) (now : Nat) (s : FeedState)
    (b : ℚ) :
    connectE false tOk now s = .error (.importError wsImportMsg) ∧
    loopConnectPhase cr false tOk now s b =
      .cont (dropExc s) (min (b * 2) 30) [b] := by
  exact ⟨rfl, rfl⟩

/-- C8 counterexample: after subscribe → connect → ack(cmd 1, sid 7) →
disconnect, the feed is not connected yet the confirmed-subscription map
still holds the sid-7 entry — `disconnect` does not clear `_sids`. -/
theorem sids_survive_disconnect_counterexample :
    ((runEvents [.subscribeTo "ticker" none none, .connectAt 100,
        .ack (some 1) (some 7), .disconnectCall false]
        initFeedState).1.connected = false) ∧
    ((runEvents [.subscribeTo "ticker" none none, .connectAt 100,
        .ack (some 1) (some 7), .disconnectCall false]
        initFeedState).1.sids
      = [(7, SubParams.mk ["ticker"] none none)]) := by
  decide

/-- C8 amended: the confirmed-subscription map is cleared unconditionally
by every (re)connect before any command is sent — its contents never
influence the connect — while `disconnect()` and mid-stream drops leave
it untouched, so stale entries may remain observable while the feed is
disconnected until the next connect discards them. -/
theorem sids_cleared_only_by_connect (now : Nat) (s : FeedState) (cr : Bool)
    (sids0 : List (Nat × SubParams)) :
    (connect now s).1.sids = [] ∧
    connect now { s with sids := sids0 } = connect now { s with sids := [] } ∧
    (disconnect cr s).sids = s.sids ∧
    (dropExc s).sids = s.sids := by
  have hkeys : ∀ kv ∈ (connBase now s).pending_subs,
      kv.1 < (connBase now s).cmd_id_counter := by
    intro kv hkv
    simp [connBase] at hkv
  have hr := replaySubs_spec (connBase now s).active_subs (connBase now s)
    rfl hkeys
  refine ⟨?_, ?_, rfl, rfl⟩
  · rw [connect_eq]
    exact hr.2.2.2.1
  · rw [connect_eq, connect_eq]
    rfl

end Pykalshi
